import Mathlib

/-!
# Verification of the pharma supply-chain data-correlation engine

Shallow embedding of `src/magentic_ui/tools/pharma_data.py`:
the query engine (`query_data_source`), the timeline fuser
(`analyze_shipment_timeline`), the accountability estimator
(`compute_accountability`) and the cost analyzer (`compute_cost_analysis`).

Modelling conventions:
* CSV cell values are modelled by `Value` (string, rational number, boolean,
  null).  Machine floats are modelled by `ℚ`.
* A loaded CSV file is a `Table` (declared column list plus rows); the data
  directory is a `DB`, an association list from file stem to table.  File
  system discovery (`Path.rglob`) is abstracted to lookup in that list:
  exact stem match first, then case-insensitive substring match, as in the
  source.
* Python truthiness of a cell value (`if record[ts_field]:`) is modelled by
  `Value.truthy`.
* Python's `sorted` is a stable sort; it is modelled by `List.mergeSort`,
  which is proved stable in the standard library.  The source compares raw
  timestamp values with `<` (raising `TypeError` on mixed types, caught by
  the enclosing `except`); the embedding totalizes the comparison with a
  rank order across constructors, which coincides with the source on the
  homogeneous (all-string, or all-numeric) timestamp lists the source
  actually supports.
-/

namespace PharmaData

/-- A scalar cell value as it appears in a record loaded from a CSV file. -/
inductive Value where
  | str (s : String)
  | num (q : ℚ)
  | boolean (b : Bool)
  | null
deriving DecidableEq, Repr

/-- A record: an ordered mapping from column name to scalar value
(Python dict loaded from a dataframe row). -/
abbrev Record := List (String × Value)

/-- Key lookup in a record (Python `record[k]` / `k in record`):
the first binding of the key, if any. -/
def recordGet (r : Record) (k : String) : Option Value :=
  (r.find? (fun p => p.1 == k)).map (fun p => p.2)

/-- Python truthiness of a cell value: `None`, `""`, `0` and `False`
are falsy, everything else is truthy. -/
def Value.truthy : Value → Bool
  | .str s => s != ""
  | .num q => q != 0
  | .boolean b => b
  | .null => false

/-- A filter value: a single scalar (equality test) or a collection
(membership test), as accepted by `query_data_source`. -/
inductive FVal where
  | scalar (v : Value)
  | coll (vs : List Value)
deriving DecidableEq, Repr

/-- Whether a record satisfies one `column = value` (or membership) filter,
mirroring `df[df[col] == val]` / `df[df[col].isin(val)]`. -/
def matchesFilter (c : String) (fv : FVal) (r : Record) : Bool :=
  match recordGet r c with
  | none => false
  | some v =>
    match fv with
    | .scalar w => v == w
    | .coll ws => ws.contains v

/-- A loaded CSV file: its declared columns and its rows in natural order. -/
structure Table where
  columns : List String
  rows : List Record
deriving DecidableEq, Repr

/-- The data directory: an association list from CSV file stem to table. -/
abbrev DB := List (String × Table)

/-- Source-name resolution of `query_data_source`: exact file-name match
first, then case-insensitive substring match against all stems, taking the
first hit. -/
def findSource (db : DB) (name : String) : Option Table :=
  match db.find? (fun p => p.1 == name) with
  | some p => some p.2
  | none =>
    (db.find? (fun p =>
      decide (name.toLower.toList <:+: p.1.toLower.toList))).map
      (fun p => p.2)

/-- Result of one `query_data_source` call.  The source always serializes a
JSON document; an error document carries `"results": []`. -/
inductive QueryResult where
  | sourceNotFound (name : String)
  | unknownColumn (col : String) (available : List String)
  | ok (columns : List String) (results : List Record)
deriving DecidableEq, Repr

/-- The `results` field of a query document: error documents carry an empty
list (`"results": []` in the source). -/
def QueryResult.resultsOf : QueryResult → List Record
  | .ok _ rs => rs
  | _ => []

/-- The filter loop of `query_data_source`: apply each filter in order,
failing with the unknown-column error (reporting the dataframe's columns,
unchanged by row filtering) as soon as a filter key is not a column. -/
def applyFilters (cols : List String) (rows : List Record) :
    List (String × FVal) → QueryResult
  | [] => .ok cols rows
  | (c, fv) :: rest =>
    if c ∈ cols then
      applyFilters cols (rows.filter (matchesFilter c fv)) rest
    else
      .unknownColumn c cols

/-- The limit step: `if limit: df = df.head(limit)`.  A limit of `0` is
falsy in Python, so no truncation happens; `DataFrame.head` keeps the first
`n` rows for positive `n` and drops the last `|n|` rows for negative `n`. -/
def applyLimit (limit : Option Int) (rows : List Record) : List Record :=
  match limit with
  | none => rows
  | some n =>
    if n = 0 then rows
    else if 0 < n then rows.take n.toNat
    else rows.take (rows.length - n.natAbs)

/-- `query_data_source(source_name, filters, limit)`: resolve the source,
apply the filters in order, then the limit. -/
def queryDataSource (db : DB) (name : String)
    (filters : List (String × FVal)) (limit : Option Int) : QueryResult :=
  match findSource db name with
  | none => .sourceNotFound name
  | some t =>
    match applyFilters t.columns t.rows filters with
    | .ok cols rows => .ok cols (applyLimit limit rows)
    | e => e

/-! ## Timeline fuser (`analyze_shipment_timeline`) -/

/-- The fixed priority list of candidate timestamp columns scanned by the
fuser. -/
def tsFields : List String :=
  ["timestamp", "dispatch_dt", "start_ts", "decision_dt", "event_dt"]

/-- The timestamp-resolution loop: scan the candidate columns in order and
take the first value that is present and truthy
(`if ts_field in record and record[ts_field]: ... break`). -/
def resolveTimestamp (fields : List String) (r : Record) : Option Value :=
  match fields with
  | [] => none
  | f :: rest =>
    match recordGet r f with
    | some v => if v.truthy then some v else resolveTimestamp rest r
    | none => resolveTimestamp rest r

/-- Rendering of a value inside the `Carrier_{...}` f-string.  Python's
`str()` formatting of numbers is abstracted by `toString` on `ℚ`. -/
def Value.toDisplay : Value → String
  | .str s => s
  | .num q => toString q
  | .boolean b => if b then "True" else "False"
  | .null => "None"

/-- The owner-resolution chain: supplier_id present ⇒ `Carrier_<id>`;
else decision present ⇒ `QA_Team`; else status equal to `"Quarantined"` ⇒
`QA_Team`; else `"Unknown"`. -/
def resolveOwner (r : Record) : String :=
  if h : (recordGet r "supplier_id").isSome then
    "Carrier_" ++ ((recordGet r "supplier_id").get h).toDisplay
  else if (recordGet r "decision").isSome then
    "QA_Team"
  else if recordGet r "status" == some (.str "Quarantined") then
    "QA_Team"
  else
    "Unknown"

/-- One fused timeline event, as assembled by the fuser. -/
structure Event where
  timestamp : Option Value
  source : String
  owner : String
  data : Record
deriving DecidableEq, Repr

/-- The fixed per-source query list issued by the fuser for one unit. -/
def sourcesToCheck (shipmentId : String) :
    List (String × List (String × FVal)) :=
  [("logistics_shipments", [("shipment_id", .scalar (.str shipmentId))]),
   ("sensor_alerts", [("shipment_id", .scalar (.str shipmentId))]),
   ("wms_quarantine_log", [("shipment_id", .scalar (.str shipmentId))]),
   ("wms_goods_movements", [("shipment_id", .scalar (.str shipmentId))]),
   ("finance_waste_log", [("shipment_id", .scalar (.str shipmentId))])]

/-- Event collection: every record returned by each of the five fixed
queries becomes one event (a failed query contributes an empty `results`
list and hence zero events). -/
def collectEvents (db : DB) (shipmentId : String) : List Event :=
  (sourcesToCheck shipmentId).flatMap (fun sf =>
    ((queryDataSource db sf.1 sf.2 none).resultsOf).map (fun r =>
      { timestamp := resolveTimestamp tsFields r
        source := sf.1
        owner := resolveOwner r
        data := r }))

/-- Comparison used to model the sort key `lambda x: x["timestamp"]`.
The source compares the raw Python values; on the homogeneous timestamp
lists it supports (all strings, or all numbers) this coincides with this
rank-totalized order, which is transitive and total so that the standard
stable-sort lemmas apply. -/
def Value.rank : Value → Nat
  | .null => 0
  | .boolean _ => 1
  | .num _ => 2
  | .str _ => 3

/-- Totalized ascending order on resolved timestamp values. -/
def Value.timeLe (a b : Value) : Bool :=
  if a.rank = b.rank then
    match a, b with
    | .str x, .str y => decide (x ≤ y)
    | .num x, .num y => decide (x ≤ y)
    | .boolean x, .boolean y => !x || y
    | _, _ => true
  else decide (a.rank < b.rank)

/-- Order on events by resolved timestamp (events without a timestamp are
removed before sorting; their position in this order is irrelevant). -/
def eventLe (a b : Event) : Bool :=
  match a.timestamp, b.timestamp with
  | none, _ => true
  | some _, none => false
  | some x, some y => x.timeLe y

/-- Banker's rounding of a rational to the nearest integer
(Python `round`): round half to even. -/
def roundHalfEven (q : ℚ) : ℤ :=
  if q - ⌊q⌋ < 1 / 2 then ⌊q⌋
  else if 1 / 2 < q - ⌊q⌋ then ⌊q⌋ + 1
  else if 2 ∣ ⌊q⌋ then ⌊q⌋ else ⌊q⌋ + 1

/-- Python `round(x, 1)`. -/
def round1 (q : ℚ) : ℚ := (roundHalfEven (10 * q) : ℚ) / 10

/-- Python `round(x, 2)`. -/
def round2 (q : ℚ) : ℚ := (roundHalfEven (100 * q) : ℚ) / 100

/-- One entry of the accountability mapping. -/
structure AccEntry where
  contribution_pct : ℚ
  event_count : Nat
deriving DecidableEq, Repr

/-- `owner_counts[owner] = owner_counts.get(owner, 0) + 1` on an insertion
-ordered dict modelled as an association list: bump the first binding in
place, or append a new binding at the end. -/
def bump (acc : List (String × Nat)) (o : String) : List (String × Nat) :=
  match acc with
  | [] => [(o, 1)]
  | (k, n) :: rest =>
    if k == o then (k, n + 1) :: rest else (k, n) :: bump rest o

/-- The counting loop of `compute_accountability`. -/
def tallyOwners (events : List Event) : List (String × Nat) :=
  events.foldl (fun acc e => bump acc e.owner) []

/-- `compute_accountability(events)`: count events per owner, return the
empty mapping when the total is zero, otherwise map each count to
`round((count / total) * 100, 1)` plus the raw count. -/
def compute_accountability (events : List Event) : List (String × AccEntry) :=
  let counts := tallyOwners events
  let total : Nat := (counts.map (fun p => p.2)).sum
  if total = 0 then []
  else counts.map (fun p =>
    (p.1, ⟨round1 (((p.2 : ℚ) / (total : ℚ)) * 100), p.2⟩))

/-- The document returned by `analyze_shipment_timeline` on its success
path (`shipment_id`, `total_events`, `timeline`, `accountability` — these
four fields and no others). -/
structure TimelineResult where
  shipment_id : String
  total_events : Nat
  timeline : List Event
  accountability : List (String × AccEntry)
deriving DecidableEq, Repr

/-- `analyze_shipment_timeline(shipment_id)`: collect events from the five
fixed sources, drop the ones whose timestamp is unresolved (falsy), sort
the rest stably by timestamp, and package the result together with the
accountability of the sorted timeline. -/
def analyze_shipment_timeline (db : DB) (shipmentId : String) :
    TimelineResult :=
  let events :=
    ((collectEvents db shipmentId).filter
      (fun e => e.timestamp.isSome)).mergeSort eventLe
  { shipment_id := shipmentId
    total_events := events.length
    timeline := events
    accountability := compute_accountability events }

/-! ## Cost analyzer (`compute_cost_analysis`) -/

/-- The `conditional_release` scenario record. -/
structure CondRelease where
  description : String
  expected_waste_usd : ℚ
  qa_review_cost_usd : ℚ
  total_cost_usd : ℚ
  probability_success : ℚ
  expected_value_usd : ℚ
deriving DecidableEq, Repr

/-- The `reject_reship` scenario record. -/
structure RejectReship where
  description : String
  expected_waste_usd : ℚ
  reship_logistics_cost_usd : ℚ
  total_cost_usd : ℚ
  probability_success : ℚ
  expected_value_usd : ℚ
deriving DecidableEq, Repr

/-- The successful `compute_cost_analysis` document. -/
structure CostAnalysis where
  shipment_id : String
  shipment_details : Record
  conditional_release : CondRelease
  reject_reship : RejectReship
  historical_waste_avg_usd : ℚ
deriving DecidableEq, Repr

/-- Result of `compute_cost_analysis`: the unit-not-found error document
(`{"error": "Shipment not found", "shipment_id": ...}`), the generic
exception document, or the analysis. -/
inductive CostResult where
  | unitNotFound (shipmentId : String)
  | failure (shipmentId : String)
  | ok (a : CostAnalysis)
deriving DecidableEq, Repr

/-- `r.get("total_loss_usd", 0)` as a number: a missing key contributes
`0`; a Python bool is an int; a string or `None` value would make the
`sum(...)` raise `TypeError` (modelled as `none`). -/
def lossOf (r : Record) : Option ℚ :=
  match recordGet r "total_loss_usd" with
  | none => some 0
  | some (.num q) => some q
  | some (.boolean b) => some (if b then 1 else 0)
  | some _ => none

/-- `compute_cost_analysis(shipment_id)`: require a shipment-logistics
record (limit 1); average `total_loss_usd` over up to 10 finance-waste-log
records with `event_type == "Quarantine"` (0 when there are none); emit the
two fixed scenarios. -/
def compute_cost_analysis (db : DB) (shipmentId : String) : CostResult :=
  match (queryDataSource db "logistics_shipments"
      [("shipment_id", .scalar (.str shipmentId))] (some 1)).resultsOf with
  | [] => .unitNotFound shipmentId
  | shipment :: _ =>
    let wrows :=
      (queryDataSource db "finance_waste_log"
        [("event_type", .scalar (.str "Quarantine"))] (some 10)).resultsOf
    match wrows.mapM lossOf with
    | none => .failure shipmentId
    | some losses =>
      let avgWaste : ℚ :=
        if wrows.isEmpty then 0 else losses.sum / (wrows.length : ℚ)
      .ok
        { shipment_id := shipmentId
          shipment_details := shipment
          conditional_release :=
            { description := "Release shipment pending QA approval"
              expected_waste_usd := 0
              qa_review_cost_usd := 500
              total_cost_usd := 500
              probability_success := 17 / 20
              expected_value_usd := -425 }
          reject_reship :=
            { description := "Reject shipment and dispatch replacement"
              expected_waste_usd := avgWaste
              reship_logistics_cost_usd := 1200
              total_cost_usd := avgWaste + 1200
              probability_success := 1
              expected_value_usd := -(avgWaste + 1200) }
          historical_waste_avg_usd := round2 avgWaste }

/-! ## Helper lemmas about the query engine -/

/-- If some filter key is not a column, the filter loop returns the
unknown-column error (with the unchanged column list), whatever the rows. -/
theorem applyFilters_hasUnknown (cols : List String)
    (filters : List (String × FVal)) (h : ∃ p ∈ filters, p.1 ∉ cols) :
    ∃ c, c ∉ cols ∧
      ∀ rows : List Record, applyFilters cols rows filters =
        .unknownColumn c cols := by
  induction filters with
  | nil => simp at h
  | cons hd tl ih =>
    by_cases hc : hd.1 ∈ cols
    · obtain ⟨p, hp, hpc⟩ := h
      rcases List.mem_cons.mp hp with rfl | hp'
      · exact absurd hc hpc
      · obtain ⟨c, hcnot, hall⟩ := ih ⟨p, hp', hpc⟩
        refine ⟨c, hcnot, fun rows => ?_⟩
        obtain ⟨c₀, f₀⟩ := hd
        rw [applyFilters, if_pos hc]
        exact hall _
    · refine ⟨hd.1, hc, fun rows => ?_⟩
      obtain ⟨c₀, f₀⟩ := hd
      rw [applyFilters, if_neg hc]

/-- Rows surviving the filter loop come from the input rows and satisfy
every filter. -/
theorem applyFilters_sound (filters : List (String × FVal)) :
    ∀ (cols : List String) (rows : List Record) (cols' : List String)
      (rows' : List Record),
      applyFilters cols rows filters = .ok cols' rows' →
      ∀ r ∈ rows', r ∈ rows ∧ ∀ p ∈ filters, matchesFilter p.1 p.2 r = true := by
  induction filters with
  | nil =>
    intro cols rows cols' rows' h r hr
    rw [applyFilters] at h
    cases h
    exact ⟨hr, by simp⟩
  | cons hd tl ih =>
    intro cols rows cols' rows' h r hr
    obtain ⟨c₀, f₀⟩ := hd
    rw [applyFilters] at h
    by_cases hc : c₀ ∈ cols
    · rw [if_pos hc] at h
      obtain ⟨hmem, hsat⟩ := ih cols _ cols' rows' h r hr
      rw [List.mem_filter] at hmem
      refine ⟨hmem.1, fun p hp => ?_⟩
      rcases List.mem_cons.mp hp with rfl | hp'
      · exact hmem.2
      · exact hsat p hp'
    · rw [if_neg hc] at h
      cases h

/-- A record matching a scalar filter has exactly the filtered value in the
filtered column. -/
theorem matchesFilter_scalar (c : String) (w : Value) (r : Record)
    (h : matchesFilter c (.scalar w) r = true) : recordGet r c = some w := by
  unfold matchesFilter at h
  cases hg : recordGet r c with
  | none => rw [hg] at h; cases h
  | some v => rw [hg] at h; simp only [beq_iff_eq] at h; rw [h]

/-- Results of a query with positive limit `k` are at most `k` many. -/
theorem query_length_le (db : DB) (name : String)
    (filters : List (String × FVal)) (k : Int) (hk : 0 < k) :
    ((queryDataSource db name filters (some k)).resultsOf).length ≤ k.toNat := by
  unfold queryDataSource
  cases findSource db name with
  | none => simp [QueryResult.resultsOf]
  | some t =>
    simp only []
    cases h : applyFilters t.columns t.rows filters with
    | ok cols rows =>
      simp only [QueryResult.resultsOf, applyLimit]
      rw [if_neg (by omega : ¬ k = 0), if_pos hk]
      exact (List.length_take _ _).trans_le (Nat.min_le_left _ _)
    | sourceNotFound n => simp [QueryResult.resultsOf]
    | unknownColumn c a => simp [QueryResult.resultsOf]

/-- The limit step never invents rows. -/
theorem applyLimit_subset (limit : Option Int) (rows : List Record) :
    ∀ r ∈ applyLimit limit rows, r ∈ rows := by
  have h : applyLimit limit rows = rows ∨
      ∃ k, applyLimit limit rows = rows.take k := by
    cases limit with
    | none => exact Or.inl rfl
    | some n =>
      by_cases h0 : n = 0
      · left; simp [applyLimit, h0]
      · by_cases h1 : 0 < n
        · right; exact ⟨n.toNat, by simp [applyLimit, h0, h1]⟩
        · right; exact ⟨rows.length - n.natAbs, by simp [applyLimit, h0, h1]⟩
  intro r hr
  rcases h with h | ⟨k, h⟩
  · rwa [h] at hr
  · rw [h] at hr
    exact List.take_subset _ _ hr

/-- Results of a query are rows of the resolved source that satisfy every
filter. -/
theorem query_results_sound (db : DB) (name : String)
    (filters : List (String × FVal)) (limit : Option Int) (t : Table)
    (hfind : findSource db name = some t) :
    ∀ r ∈ (queryDataSource db name filters limit).resultsOf,
      r ∈ t.rows ∧ ∀ p ∈ filters, matchesFilter p.1 p.2 r = true := by
  intro r hr
  cases h : applyFilters t.columns t.rows filters with
  | ok cols rows =>
    simp only [queryDataSource, hfind, h, QueryResult.resultsOf] at hr
    have hr' : r ∈ rows := applyLimit_subset limit rows r hr
    exact applyFilters_sound filters t.columns t.rows cols rows h r hr'
  | sourceNotFound n =>
    simp only [queryDataSource, hfind, h, QueryResult.resultsOf] at hr
    cases hr
  | unknownColumn c a =>
    simp only [queryDataSource, hfind, h, QueryResult.resultsOf] at hr
    cases hr

/-! ## Concrete databases used by witnesses and counterexamples -/

/-- A small inventory source used to exercise the unknown-column error. -/
def invTable : Table :=
  { columns := ["shipment_id", "qty"]
    rows := [[("shipment_id", Value.str "SHP-1"), ("qty", Value.num 5)]] }

/-- Catalog containing just the inventory source. -/
def dbInv : DB := [("inventory", invTable)]

/-- A two-row source used to exercise the limit semantics. -/
def dbLim : DB :=
  [("t_rows",
    { columns := ["a"]
      rows := [[("a", Value.str "x")], [("a", Value.str "y")]] })]

/-- One shipment-logistics record for unit `S1`. -/
def shipTable : Table :=
  { columns := ["shipment_id", "supplier_id", "dispatch_dt"]
    rows := [[("shipment_id", Value.str "S1"),
              ("supplier_id", Value.str "SUP1"),
              ("dispatch_dt", Value.str "2024-01-01T08:00")]] }

/-- An empty finance-waste-log source (cold start). -/
def wasteTable : Table :=
  { columns := ["shipment_id", "event_type", "total_loss_usd"]
    rows := [] }

/-- Catalog for the cost-analysis witnesses: the shipment exists, the waste
log has no history. -/
def dbCost : DB :=
  [("logistics_shipments", shipTable), ("finance_waste_log", wasteTable)]

/-! ## C3 — unknown filter column -/

/-- C3: for every resolvable source and every filter mapping containing a
key that is not a column of the loaded source's schema, `query_data_source`
returns an unknown-column error reporting the full list of available
columns and carrying no records; it never succeeds with zero
silently-matched rows. -/
theorem unknown_filter_column_errors (db : DB) (name : String) (t : Table)
    (filters : List (String × FVal)) (limit : Option Int)
    (hfind : findSource db name = some t)
    (hbad : ∃ p ∈ filters, p.1 ∉ t.columns) :
    ∃ c, c ∉ t.columns ∧
      queryDataSource db name filters limit = .unknownColumn c t.columns ∧
      (queryDataSource db name filters limit).resultsOf = [] := by
  obtain ⟨c, hcnot, hall⟩ := applyFilters_hasUnknown t.columns filters hbad
  refine ⟨c, hcnot, ?_, ?_⟩
  · simp [queryDataSource, hfind, hall t.rows]
  · simp [queryDataSource, hfind, hall t.rows, QueryResult.resultsOf]

/-- Witness for C3 at a concrete source and filter set. -/
theorem unknown_filter_column_errors_witness :
    ∃ c, c ∉ invTable.columns ∧
      queryDataSource dbInv "inventory"
        [("bogus", FVal.scalar (Value.str "x"))] none =
        .unknownColumn c invTable.columns ∧
      (queryDataSource dbInv "inventory"
        [("bogus", FVal.scalar (Value.str "x"))] none).resultsOf = [] :=
  unknown_filter_column_errors dbInv "inventory" invTable
    [("bogus", FVal.scalar (Value.str "x"))] none rfl (by decide)

/-! ## C10 — limit semantics -/

/-- C10 counterexample: with `limit = -1` (a falsy-free, non-positive
value) the source truncates too — `DataFrame.head(-1)` drops the last row —
so truncation is not restricted to positive limit values as claimed. -/
theorem negative_limit_truncates_cex :
    (queryDataSource dbLim "t_rows" [] (some (-1))).resultsOf ≠
      (queryDataSource dbLim "t_rows" [] none).resultsOf := by decide

/-- C10 (amended): a zero limit is falsy in Python and is treated the same
as no limit (every filtered row is returned); a positive limit keeps the
first `n` filtered rows; but a negative limit also truncates, keeping all
but the last `|n|` rows. -/
theorem zero_limit_returns_all_rows (db : DB) (name : String)
    (filters : List (String × FVal)) :
    queryDataSource db name filters (some 0) =
      queryDataSource db name filters none ∧
    (∀ n : Int, 0 < n →
      (queryDataSource db name filters (some n)).resultsOf =
        ((queryDataSource db name filters none).resultsOf).take n.toNat) ∧
    (∀ n : Int, n < 0 →
      (queryDataSource db name filters (some n)).resultsOf =
        ((queryDataSource db name filters none).resultsOf).take
          (((queryDataSource db name filters none).resultsOf).length -
            n.natAbs)) := by
  cases hf : findSource db name with
  | none =>
    refine ⟨?_, fun n hn => ?_, fun n hn => ?_⟩ <;>
      simp [queryDataSource, hf, QueryResult.resultsOf]
  | some t =>
    cases h : applyFilters t.columns t.rows filters with
    | ok cols rows =>
      refine ⟨?_, fun n hn => ?_, fun n hn => ?_⟩
      · simp [queryDataSource, hf, h, applyLimit]
      · simp [queryDataSource, hf, h, QueryResult.resultsOf, applyLimit,
          hn, show ¬ n = 0 by omega]
      · simp [queryDataSource, hf, h, QueryResult.resultsOf, applyLimit,
          show ¬ n = 0 by omega, show ¬ 0 < n by omega]
    | sourceNotFound m =>
      refine ⟨?_, fun n hn => ?_, fun n hn => ?_⟩ <;>
        simp [queryDataSource, hf, h, QueryResult.resultsOf]
    | unknownColumn c a =>
      refine ⟨?_, fun n hn => ?_, fun n hn => ?_⟩ <;>
        simp [queryDataSource, hf, h, QueryResult.resultsOf]

/-- Witness for C10 (amended) at a concrete two-row source. -/
theorem zero_limit_returns_all_rows_witness :
    queryDataSource dbLim "t_rows" [] (some 0) =
      queryDataSource dbLim "t_rows" [] none ∧
    (queryDataSource dbLim "t_rows" [] (some 1)).resultsOf =
      ((queryDataSource dbLim "t_rows" [] none).resultsOf).take
        ((1 : Int)).toNat ∧
    (queryDataSource dbLim "t_rows" [] (some (-1))).resultsOf =
      ((queryDataSource dbLim "t_rows" [] none).resultsOf).take
        (((queryDataSource dbLim "t_rows" [] none).resultsOf).length -
          ((-1 : Int)).natAbs) :=
  ⟨(zero_limit_returns_all_rows dbLim "t_rows" []).1,
   (zero_limit_returns_all_rows dbLim "t_rows" []).2.1 1 (by norm_num),
   (zero_limit_returns_all_rows dbLim "t_rows" []).2.2 (-1) (by norm_num)⟩

/-! ## C9 — missing unit in the cost analyzer -/

/-- C9: when the shipment-logistics query for the unit returns no records,
`compute_cost_analysis` returns the unit-not-found error carrying the unit
identifier, and no scenario data (the error constructor carries nothing
else). -/
theorem cost_analysis_missing_unit (db : DB) (id : String)
    (h : (queryDataSource db "logistics_shipments"
      [("shipment_id", FVal.scalar (.str id))] (some 1)).resultsOf = []) :
    compute_cost_analysis db id = .unitNotFound id := by
  simp only [compute_cost_analysis, h]

/-- Witness for C9: a unit absent from the shipment source. -/
theorem cost_analysis_missing_unit_witness :
    compute_cost_analysis dbCost "GHOST" = .unitNotFound "GHOST" :=
  cost_analysis_missing_unit dbCost "GHOST" rfl

/-- The analysis that `compute_cost_analysis` produces on `dbCost` for
`S1` (cold start: no waste history, so the average waste is `0`).  Fields
are written so the equation with the engine's output holds by `rfl`. -/
def aCost : CostAnalysis :=
  { shipment_id := "S1"
    shipment_details := [("shipment_id", Value.str "S1"),
                         ("supplier_id", Value.str "SUP1"),
                         ("dispatch_dt", Value.str "2024-01-01T08:00")]
    conditional_release :=
      { description := "Release shipment pending QA approval"
        expected_waste_usd := 0
        qa_review_cost_usd := 500
        total_cost_usd := 500
        probability_success := 17 / 20
        expected_value_usd := -425 }
    reject_reship :=
      { description := "Reject shipment and dispatch replacement"
        expected_waste_usd := 0
        reship_logistics_cost_usd := 1200
        total_cost_usd := 0 + 1200
        probability_success := 1
        expected_value_usd := -(0 + 1200) }
    historical_waste_avg_usd := round2 0 }

/-! ## C1 — conditional_release scenario -/

/-- Expected value of the `conditional_release` scenario of a cost result,
when the analysis succeeded. -/
def CostResult.condEV : CostResult → Option ℚ
  | .ok a => some a.conditional_release.expected_value_usd
  | _ => none

/-- Total cost of the `conditional_release` scenario of a cost result,
when the analysis succeeded. -/
def CostResult.condTotalCost : CostResult → Option ℚ
  | .ok a => some a.conditional_release.total_cost_usd
  | _ => none

/-- C1 counterexample: on a concrete successful analysis the
`conditional_release` expected value is `-425`, not `-(total_cost) = -500`
as the claim states. -/
theorem conditional_release_ev_cex :
    CostResult.condTotalCost (compute_cost_analysis dbCost "S1") =
      some 500 ∧
    CostResult.condEV (compute_cost_analysis dbCost "S1") = some (-425) ∧
    CostResult.condEV (compute_cost_analysis dbCost "S1") ≠
      some (-(500 : ℚ)) := by
  refine ⟨rfl, rfl, ?_⟩
  have h : CostResult.condEV (compute_cost_analysis dbCost "S1") =
      some (-425) := rfl
  rw [h]
  intro hc
  rw [Option.some_inj] at hc
  norm_num at hc

/-- C1 (amended): in every successful `compute_cost_analysis` result the
`conditional_release` scenario has QA review cost 500, zero expected waste,
success probability 0.85, total cost 500, and expected value `-425` — that
is, `-(total_cost × probability_success)`, not `-(total_cost)`. -/
theorem conditional_release_scenario_fields (db : DB) (id : String)
    (a : CostAnalysis) (h : compute_cost_analysis db id = .ok a) :
    a.conditional_release.qa_review_cost_usd = 500 ∧
    a.conditional_release.expected_waste_usd = 0 ∧
    a.conditional_release.probability_success = 17 / 20 ∧
    a.conditional_release.total_cost_usd = 500 ∧
    a.conditional_release.expected_value_usd = -425 ∧
    a.conditional_release.expected_value_usd =
      -(a.conditional_release.total_cost_usd *
        a.conditional_release.probability_success) := by
  unfold compute_cost_analysis at h
  split at h
  · cases h
  · dsimp only [] at h
    split at h
    · cases h
    · cases h
      refine ⟨rfl, rfl, rfl, rfl, rfl, by norm_num⟩

/-- Witness for C1 (amended) at a concrete successful analysis. -/
theorem conditional_release_scenario_fields_witness :
    aCost.conditional_release.qa_review_cost_usd = 500 ∧
    aCost.conditional_release.expected_waste_usd = 0 ∧
    aCost.conditional_release.probability_success = 17 / 20 ∧
    aCost.conditional_release.total_cost_usd = 500 ∧
    aCost.conditional_release.expected_value_usd = -425 ∧
    aCost.conditional_release.expected_value_usd =
      -(aCost.conditional_release.total_cost_usd *
        aCost.conditional_release.probability_success) :=
  conditional_release_scenario_fields dbCost "S1" aCost rfl

/-- Unfolding of the timestamp scan when the head column is present. -/
theorem resolveTimestamp_cons_some {r : Record} {f₀ : String} {v₀ : Value}
    (rest : List String) (hg : recordGet r f₀ = some v₀) :
    resolveTimestamp (f₀ :: rest) r =
      if v₀.truthy then some v₀ else resolveTimestamp rest r := by
  rw [resolveTimestamp, hg]

/-- Unfolding of the timestamp scan when the head column is absent. -/
theorem resolveTimestamp_cons_none {r : Record} {f₀ : String}
    (rest : List String) (hg : recordGet r f₀ = none) :
    resolveTimestamp (f₀ :: rest) r = resolveTimestamp rest r := by
  rw [resolveTimestamp, hg]

/-- The scan resolves nothing exactly when no priority column holds a
truthy value. -/
theorem resolveTimestamp_eq_none_iff (fields : List String) (r : Record) :
    resolveTimestamp fields r = none ↔
      ∀ f ∈ fields, ∀ v, recordGet r f = some v → v.truthy = false := by
  induction fields with
  | nil => simp [resolveTimestamp]
  | cons f₀ rest ih =>
    cases hg : recordGet r f₀ with
    | none =>
      rw [resolveTimestamp_cons_none rest hg, ih]
      constructor
      · intro h f hf v hv
        rcases List.mem_cons.mp hf with rfl | hf'
        · rw [hg] at hv; cases hv
        · exact h f hf' v hv
      · intro h f hf v hv
        exact h f (List.mem_cons_of_mem _ hf) v hv
    | some v₀ =>
      rw [resolveTimestamp_cons_some rest hg]
      by_cases ht₀ : v₀.truthy
      · rw [if_pos ht₀]
        constructor
        · intro h; cases h
        · intro h
          exact absurd (h f₀ (List.mem_cons_self _ _) v₀ hg)
            (by simp [ht₀])
      · rw [if_neg ht₀, ih]
        constructor
        · intro h f hf v hv
          rcases List.mem_cons.mp hf with rfl | hf'
          · rw [hg] at hv
            cases hv
            exact Bool.eq_false_iff.mpr ht₀
          · exact h f hf' v hv
        · intro h f hf v hv
          exact h f (List.mem_cons_of_mem _ hf) v hv

/-- The scan resolves `v` exactly when some priority column holds the
truthy value `v` and every earlier column's value, if present, is falsy. -/
theorem resolveTimestamp_eq_some_iff (fields : List String) (r : Record)
    (v : Value) :
    resolveTimestamp fields r = some v ↔
      ∃ pre f post, fields = pre ++ f :: post ∧
        recordGet r f = some v ∧ v.truthy = true ∧
        ∀ g ∈ pre, ∀ w, recordGet r g = some w → w.truthy = false := by
  induction fields with
  | nil => simp [resolveTimestamp]
  | cons f₀ rest ih =>
    cases hg : recordGet r f₀ with
    | none =>
      rw [resolveTimestamp_cons_none rest hg, ih]
      constructor
      · rintro ⟨pre, f, post, rfl, hf, ht, hpre⟩
        refine ⟨f₀ :: pre, f, post, rfl, hf, ht, fun g hgm w hw => ?_⟩
        rcases List.mem_cons.mp hgm with rfl | hgm'
        · rw [hg] at hw; cases hw
        · exact hpre g hgm' w hw
      · rintro ⟨pre, f, post, heq, hf, ht, hpre⟩
        cases pre with
        | nil =>
          simp only [List.nil_append] at heq
          cases heq
          rw [hg] at hf
          cases hf
        | cons p pre' =>
          rw [List.cons_append] at heq
          cases heq
          exact ⟨pre', f, post, rfl, hf, ht,
            fun g hgm w hw => hpre g (List.mem_cons_of_mem _ hgm) w hw⟩
    | some v₀ =>
      rw [resolveTimestamp_cons_some rest hg]
      by_cases ht₀ : v₀.truthy
      · rw [if_pos ht₀]
        constructor
        · intro h
          cases h
          exact ⟨[], f₀, rest, rfl, hg, ht₀, by simp⟩
        · rintro ⟨pre, f, post, heq, hf, ht, hpre⟩
          cases pre with
          | nil =>
            simp only [List.nil_append] at heq
            cases heq
            rw [hg] at hf
            exact hf
          | cons p pre' =>
            rw [List.cons_append] at heq
            cases heq
            have := hpre f₀ (List.mem_cons_self _ _) v₀ hg
            rw [ht₀] at this
            cases this
      · rw [if_neg ht₀, ih]
        constructor
        · rintro ⟨pre, f, post, rfl, hf, ht, hpre⟩
          refine ⟨f₀ :: pre, f, post, rfl, hf, ht, fun g hgm w hw => ?_⟩
          rcases List.mem_cons.mp hgm with rfl | hgm'
          · rw [hg] at hw
            cases hw
            exact Bool.eq_false_iff.mpr ht₀
          · exact hpre g hgm' w hw
        · rintro ⟨pre, f, post, heq, hf, ht, hpre⟩
          cases pre with
          | nil =>
            simp only [List.nil_append] at heq
            cases heq
            rw [hg] at hf
            cases hf
            rw [ht] at ht₀
            exact absurd rfl ht₀
          | cons p pre' =>
            rw [List.cons_append] at heq
            cases heq
            exact ⟨pre', f, post, rfl, hf, ht,
              fun g hgm w hw => hpre g (List.mem_cons_of_mem _ hgm) w hw⟩

/-! ## C5 — timestamp resolution -/

/-- Timestamp resolution as the claim words it (refinement reference, not
part of the source embedding): take the value of the first priority column
that is present in the record with a non-null value. -/
def firstNonNullTimestamp (fields : List String) (r : Record) : Option Value :=
  match fields with
  | [] => none
  | f :: rest =>
    match recordGet r f with
    | some v => if v ≠ .null then some v else firstNonNullTimestamp rest r
    | none => firstNonNullTimestamp rest r

/-- Record whose `timestamp` column holds the empty string: non-null but
falsy, so the source skips it while the claim would take it. -/
def rFalsyTs : Record :=
  [("timestamp", Value.str ""), ("dispatch_dt", Value.str "2024-01-02T00:00")]

/-- C5 counterexample: on a record whose highest-priority timestamp column
holds the non-null (but falsy) empty string, the source skips it and
resolves the next column, while the claim's first-non-null rule would
return the empty string. -/
theorem timestamp_resolution_nonnull_cex :
    recordGet rFalsyTs "timestamp" = some (Value.str "") ∧
    Value.str "" ≠ Value.null ∧
    firstNonNullTimestamp tsFields rFalsyTs = some (Value.str "") ∧
    resolveTimestamp tsFields rFalsyTs =
      some (Value.str "2024-01-02T00:00") := by decide

/-- C5 (amended): the resolved timestamp is the value of the first priority
column whose value is present and truthy (non-null, non-empty, nonzero,
not `False`) — characterized both ways: no resolution iff no column holds a
truthy value, and resolution to `v` iff some column holds the truthy `v`
while every earlier column's value, if present, is falsy. -/
theorem timestamp_resolution_first_truthy (fields : List String) (r : Record) :
    (resolveTimestamp fields r = none ↔
      ∀ f ∈ fields, ∀ v, recordGet r f = some v → v.truthy = false) ∧
    (∀ v, resolveTimestamp fields r = some v ↔
      ∃ pre f post, fields = pre ++ f :: post ∧
        recordGet r f = some v ∧ v.truthy = true ∧
        ∀ g ∈ pre, ∀ w, recordGet r g = some w → w.truthy = false) :=
  ⟨resolveTimestamp_eq_none_iff fields r,
   fun v => resolveTimestamp_eq_some_iff fields r v⟩

/-- Witness for C5 (amended): the characterization applied to a concrete
record; the `dispatch_dt` hit decomposes the priority list with
`pre = ["timestamp"]`. -/
theorem timestamp_resolution_first_truthy_witness :
    resolveTimestamp tsFields rFalsyTs =
      some (Value.str "2024-01-02T00:00") ↔
    ∃ pre f post, tsFields = pre ++ f :: post ∧
      recordGet rFalsyTs f = some (Value.str "2024-01-02T00:00") ∧
      (Value.str "2024-01-02T00:00").truthy = true ∧
      ∀ g ∈ pre, ∀ w, recordGet rFalsyTs g = some w → w.truthy = false :=
  (timestamp_resolution_first_truthy tsFields rFalsyTs).2
    (Value.str "2024-01-02T00:00")

/-! ## C6 — owner resolution -/

/-- C6: the resolved owner is determined by the first matching rule in
fixed priority order: a present `supplier_id` gives `Carrier_<value>`;
otherwise a present `decision` gives `QA_Team`; otherwise a `status` equal
to `"Quarantined"` gives `QA_Team`; otherwise the owner is `"Unknown"`.
Only the first matching rule applies. -/
theorem owner_resolution_priority (r : Record) :
    (∀ v, recordGet r "supplier_id" = some v →
      resolveOwner r = "Carrier_" ++ v.toDisplay) ∧
    (recordGet r "supplier_id" = none →
      ∀ v, recordGet r "decision" = some v → resolveOwner r = "QA_Team") ∧
    (recordGet r "supplier_id" = none →
      recordGet r "decision" = none →
      recordGet r "status" = some (.str "Quarantined") →
      resolveOwner r = "QA_Team") ∧
    (recordGet r "supplier_id" = none →
      recordGet r "decision" = none →
      recordGet r "status" ≠ some (.str "Quarantined") →
      resolveOwner r = "Unknown") := by
  refine ⟨?_, ?_, ?_, ?_⟩
  · intro v hv
    simp [resolveOwner, hv]
  · intro hs v hv
    simp [resolveOwner, hs, hv]
  · intro hs hd hq
    simp [resolveOwner, hs, hd, hq]
  · intro hs hd hq
    simp only [resolveOwner, hs, hd]
    rw [dif_neg (by simp), if_neg (by simp), if_neg (by simp [beq_iff_eq, hq])]

/-- Record resolving through the first owner rule. -/
def rSupplier : Record := [("supplier_id", Value.str "SUP-9")]

/-- Witness for C6: a record carrying a supplier identifier resolves to
the carrier owner through the first rule. -/
theorem owner_resolution_priority_witness :
    resolveOwner rSupplier = "Carrier_" ++ (Value.str "SUP-9").toDisplay :=
  (owner_resolution_priority rSupplier).1 (Value.str "SUP-9") rfl

/-! ## C2 — dropped records and the fused document -/

/-- The events the fuser keeps: collected events with a resolved
timestamp (this is the filter inside `analyze_shipment_timeline`). -/
def includedEvents (db : DB) (id : String) : List Event :=
  (collectEvents db id).filter (fun e => e.timestamp.isSome)

/-- The number of collected records the fuser drops for lack of a
resolvable timestamp. -/
def droppedCount (db : DB) (id : String) : Nat :=
  ((collectEvents db id).filter (fun e => e.timestamp.isNone)).length

/-- Every numeric value in a record. -/
def recordNums (r : Record) : List ℚ :=
  r.filterMap (fun p =>
    match p.2 with
    | .num q => some q
    | _ => none)

/-- Every numeric quantity reported anywhere in the fused document: the
event count, the numbers inside each timeline record, and each
accountability percentage and count.  Used to express that the dropped
-record count appears nowhere in the result. -/
def TimelineResult.reportedNums (t : TimelineResult) : List ℚ :=
  ((t.total_events : ℚ) ::
    t.timeline.flatMap (fun e => recordNums e.data)) ++
    t.accountability.flatMap (fun p =>
      [p.2.contribution_pct, (p.2.event_count : ℚ)])

/-- Rounding to the nearest integer is exact on integers. -/
theorem roundHalfEven_intCast (n : ℤ) : roundHalfEven (n : ℚ) = n := by
  unfold roundHalfEven
  rw [Int.floor_intCast, if_pos (by norm_num)]

/-- One-decimal rounding is exact on integers. -/
theorem round1_intCast (n : ℤ) : round1 (n : ℚ) = (n : ℚ) := by
  unfold round1
  rw [show (10 : ℚ) * (n : ℚ) = ((10 * n : ℤ) : ℚ) from by push_cast; ring,
    roundHalfEven_intCast]
  push_cast
  rw [mul_div_cancel_left₀ _ (by norm_num : (10 : ℚ) ≠ 0)]

/-- Included and dropped events partition the collected events. -/
theorem included_add_dropped (db : DB) (id : String) :
    (collectEvents db id).length =
      (includedEvents db id).length + droppedCount db id := by
  unfold includedEvents droppedCount
  induction collectEvents db id with
  | nil => rfl
  | cons e tl ih =>
    cases h : e.timestamp with
    | none =>
      simp [List.filter_cons, h, Option.isSome, Option.isNone, ih]
      omega
    | some v =>
      simp [List.filter_cons, h, Option.isSome, Option.isNone, ih]
      omega

/-- C2 (amended): events with no resolvable timestamp are excluded from
the returned timeline, and the reported `total_events` counts only the
included events; the dropped events are the rest of the collected records,
but no separate dropped-record count is reported anywhere in the result
(see the counterexample). -/
theorem untimestamped_excluded_from_timeline (db : DB) (id : String) :
    (∀ e, e ∈ collectEvents db id → e.timestamp = none →
      e ∉ (analyze_shipment_timeline db id).timeline) ∧
    (analyze_shipment_timeline db id).total_events =
      (includedEvents db id).length ∧
    (collectEvents db id).length =
      (includedEvents db id).length + droppedCount db id := by
  refine ⟨?_, ?_, included_add_dropped db id⟩
  · intro e _ hnone hmem
    have hmem' : e ∈ (collectEvents db id).filter
        (fun e => e.timestamp.isSome) := by
      simpa [analyze_shipment_timeline, List.mem_mergeSort] using hmem
    have := (List.mem_filter.mp hmem').2
    rw [hnone] at this
    cases this
  · simp [analyze_shipment_timeline, includedEvents, List.length_mergeSort]

/-- Fusion catalog: one timestamped logistics record for `U1`, two sensor
records with no timestamp column, the remaining sources empty. -/
def dbFuse : DB :=
  [("logistics_shipments",
    { columns := ["shipment_id", "supplier_id", "dispatch_dt"]
      rows := [[("shipment_id", Value.str "U1"),
                ("supplier_id", Value.str "SUP"),
                ("dispatch_dt", Value.str "2024-01-01T08:00")]] }),
   ("sensor_alerts",
    { columns := ["shipment_id", "note"]
      rows := [[("shipment_id", Value.str "U1"), ("note", Value.str "hot")],
               [("shipment_id", Value.str "U1"),
                ("note", Value.str "cold")]] }),
   ("wms_quarantine_log", { columns := ["shipment_id"], rows := [] }),
   ("wms_goods_movements", { columns := ["shipment_id"], rows := [] }),
   ("finance_waste_log",
    { columns := ["shipment_id", "event_type", "total_loss_usd"]
      rows := [] })]

/-- The single included event of `dbFuse` for unit `U1`. -/
def eIncluded : Event :=
  { timestamp := some (Value.str "2024-01-01T08:00")
    source := "logistics_shipments"
    owner := "Carrier_SUP"
    data := [("shipment_id", Value.str "U1"),
             ("supplier_id", Value.str "SUP"),
             ("dispatch_dt", Value.str "2024-01-01T08:00")] }

/-- The first dropped event of `dbFuse` for unit `U1`. -/
def eDropped : Event :=
  { timestamp := none
    source := "sensor_alerts"
    owner := "Unknown"
    data := [("shipment_id", Value.str "U1"), ("note", Value.str "hot")] }

/-- C2 counterexample: for `U1` two collected records are dropped, yet the
fused document reports only the included-event count (1); the dropped
count 2 appears nowhere among the numbers the document reports, so the
dropped count is not reported separately as claimed. -/
theorem dropped_count_unreported_cex :
    droppedCount dbFuse "U1" = 2 ∧
    (analyze_shipment_timeline dbFuse "U1").total_events = 1 ∧
    (2 : ℚ) ∉ (analyze_shipment_timeline dbFuse "U1").reportedNums := by
  have hinc : (collectEvents dbFuse "U1").filter
      (fun e => e.timestamp.isSome) = [eIncluded] := by decide
  refine ⟨by decide, ?_, ?_⟩
  · simp [analyze_shipment_timeline, hinc]
  · simp only [analyze_shipment_timeline, hinc, List.mergeSort_singleton,
      TimelineResult.reportedNums, compute_accountability, tallyOwners,
      List.foldl_cons, List.foldl_nil, bump, List.map_cons, List.map_nil,
      List.sum_cons, List.sum_nil, recordNums, eIncluded,
      List.flatMap_cons, List.flatMap_nil, List.filterMap]
    norm_num
    rw [show (100 : ℚ) = ((100 : ℤ) : ℚ) from by norm_num, round1_intCast]
    norm_num

/-- Witness for C2 (amended): the dropped sensor event is excluded from
the concrete timeline, and the counts add up. -/
theorem untimestamped_excluded_witness :
    eDropped ∈ collectEvents dbFuse "U1" ∧
    eDropped.timestamp = none ∧
    eDropped ∉ (analyze_shipment_timeline dbFuse "U1").timeline ∧
    (analyze_shipment_timeline dbFuse "U1").total_events =
      (includedEvents dbFuse "U1").length ∧
    (collectEvents dbFuse "U1").length =
      (includedEvents dbFuse "U1").length + droppedCount dbFuse "U1" :=
  ⟨by decide, rfl,
   (untimestamped_excluded_from_timeline dbFuse "U1").1 eDropped
     (by decide) rfl,
   (untimestamped_excluded_from_timeline dbFuse "U1").2.1,
   (untimestamped_excluded_from_timeline dbFuse "U1").2.2⟩

/-! ## C4 — sortedness and stability of the timeline -/

/-- The timestamp comparison is total. -/
theorem Value.timeLe_total (a b : Value) :
    (a.timeLe b || b.timeLe a) = true := by
  cases a <;> cases b <;>
    simp [Value.timeLe, Value.rank] <;>
    first
      | exact le_total _ _
      | (rename_i x y; cases x <;> cases y <;> simp)

/-- The timestamp comparison is transitive. -/
theorem Value.timeLe_trans (a b c : Value) (hab : a.timeLe b = true)
    (hbc : b.timeLe c = true) : a.timeLe c = true := by
  cases a <;> cases b <;> cases c <;>
    simp_all [Value.timeLe, Value.rank] <;>
    first
      | exact le_trans hab hbc
      | (rename_i x y z; cases x <;> cases y <;> cases z <;> simp_all)

/-- The timestamp comparison is reflexive. -/
theorem Value.timeLe_refl (x : Value) : x.timeLe x = true := by
  cases x <;> simp [Value.timeLe, Value.rank]

/-- The event comparison is total. -/
theorem eventLe_total (a b : Event) : (eventLe a b || eventLe b a) = true := by
  unfold eventLe
  cases ha : a.timestamp <;> cases hb : b.timestamp <;> simp
  simpa using Value.timeLe_total _ _

/-- The event comparison is transitive. -/
theorem eventLe_trans (a b c : Event) (hab : eventLe a b = true)
    (hbc : eventLe b c = true) : eventLe a c = true := by
  unfold eventLe at hab hbc ⊢
  cases ha : a.timestamp <;> cases hb : b.timestamp <;>
    cases hc : c.timestamp <;> simp_all
  exact Value.timeLe_trans _ _ _ hab hbc

/-- Events with equal resolved timestamps compare `≤` both ways. -/
theorem eventLe_of_eq_timestamp (a b : Event)
    (h : a.timestamp = b.timestamp) : eventLe a b = true := by
  unfold eventLe
  rw [h]
  cases hb : b.timestamp with
  | none => rfl
  | some v => exact Value.timeLe_refl v

/-- C4: the returned timeline is sorted ascending (non-decreasing) by
resolved timestamp, and the sort is stable: any two included events with
equal timestamps keep, in the timeline, the order in which they were
collected from the fixed source sequence. -/
theorem timeline_sorted_stable (db : DB) (id : String) :
    ((analyze_shipment_timeline db id).timeline).Pairwise
      (fun a b => eventLe a b = true) ∧
    ∀ a b : Event, List.Sublist [a, b] (includedEvents db id) →
      a.timestamp = b.timestamp →
      List.Sublist [a, b] ((analyze_shipment_timeline db id).timeline) := by
  have heq : (analyze_shipment_timeline db id).timeline =
      (includedEvents db id).mergeSort eventLe := rfl
  constructor
  · rw [heq]
    exact List.sorted_mergeSort eventLe_trans eventLe_total _
  · intro a b hsub hts
    rw [heq]
    exact List.pair_sublist_mergeSort eventLe_trans eventLe_total
      (eventLe_of_eq_timestamp a b hts) hsub

/-- Catalog with two events carrying an equal resolved timestamp, drawn
from two different sources. -/
def dbTie : DB :=
  [("logistics_shipments",
    { columns := ["shipment_id", "supplier_id", "dispatch_dt"]
      rows := [[("shipment_id", Value.str "U1"),
                ("supplier_id", Value.str "SUP"),
                ("dispatch_dt", Value.str "2024-01-01T08:00")]] }),
   ("sensor_alerts",
    { columns := ["shipment_id", "timestamp"]
      rows := [[("shipment_id", Value.str "U1"),
                ("timestamp", Value.str "2024-01-01T08:00")]] }),
   ("wms_quarantine_log", { columns := ["shipment_id"], rows := [] }),
   ("wms_goods_movements", { columns := ["shipment_id"], rows := [] }),
   ("finance_waste_log",
    { columns := ["shipment_id", "event_type", "total_loss_usd"]
      rows := [] })]

/-- First collected event of the tie (logistics source). -/
def eTieA : Event :=
  { timestamp := some (Value.str "2024-01-01T08:00")
    source := "logistics_shipments"
    owner := "Carrier_SUP"
    data := [("shipment_id", Value.str "U1"),
             ("supplier_id", Value.str "SUP"),
             ("dispatch_dt", Value.str "2024-01-01T08:00")] }

/-- Second collected event of the tie (sensor source). -/
def eTieB : Event :=
  { timestamp := some (Value.str "2024-01-01T08:00")
    source := "sensor_alerts"
    owner := "Unknown"
    data := [("shipment_id", Value.str "U1"),
             ("timestamp", Value.str "2024-01-01T08:00")] }

/-- Witness for C4: two equal-timestamp events keep their collection
order in the concrete timeline. -/
theorem timeline_sorted_stable_witness :
    List.Sublist [eTieA, eTieB] (includedEvents dbTie "U1") ∧
    eTieA.timestamp = eTieB.timestamp ∧
    List.Sublist [eTieA, eTieB]
      ((analyze_shipment_timeline dbTie "U1").timeline) :=
  ⟨by rw [show includedEvents dbTie "U1" = [eTieA, eTieB] from by decide],
   rfl,
   (timeline_sorted_stable dbTie "U1").2 eTieA eTieB
     (by rw [show includedEvents dbTie "U1" = [eTieA, eTieB] from by decide])
     rfl⟩

/-! ## C7 — accountability estimator -/

/-- Number of events attributed to one owner. -/
def countOwner (l : List Event) (o : String) : Nat :=
  l.countP (fun e => e.owner == o)

/-- Lookup in the owner-count dict. -/
def lookupCount : List (String × Nat) → String → Option Nat
  | [], _ => none
  | (k, n) :: tl, o => if k = o then some n else lookupCount tl o

/-- Lookup in the accountability mapping. -/
def lookupAcc : List (String × AccEntry) → String → Option AccEntry
  | [], _ => none
  | (k, e) :: tl, o => if k = o then some e else lookupAcc tl o

/-- Sum of the reported contribution percentages. -/
def sumPct (m : List (String × AccEntry)) : ℚ :=
  (m.map (fun p => p.2.contribution_pct)).sum

/-- Zeta-expanded form of the estimator. -/
theorem compute_accountability_eq (events : List Event) :
    compute_accountability events =
      if ((tallyOwners events).map (fun p => p.2)).sum = 0 then []
      else (tallyOwners events).map (fun p =>
        (p.1, (⟨round1 (((p.2 : ℚ) /
          ((((tallyOwners events).map (fun p => p.2)).sum : Nat) : ℚ)) * 100),
          p.2⟩ : AccEntry))) := rfl

/-- Bumping an owner increments exactly its count. -/
theorem lookupCount_bump_self (acc : List (String × Nat)) (o : String) :
    lookupCount (bump acc o) o =
      some ((lookupCount acc o).getD 0 + 1) := by
  induction acc with
  | nil => simp [bump, lookupCount]
  | cons p tl ih =>
    obtain ⟨k, n⟩ := p
    by_cases hk : k = o
    · subst hk
      simp [bump, lookupCount]
    · have hb : bump ((k, n) :: tl) o = (k, n) :: bump tl o := by
        simp [bump, hk]
      rw [hb, lookupCount, if_neg hk, lookupCount, if_neg hk, ih]

/-- Bumping one owner leaves other owners unchanged. -/
theorem lookupCount_bump_ne (acc : List (String × Nat)) (o o' : String)
    (h : o' ≠ o) : lookupCount (bump acc o) o' = lookupCount acc o' := by
  induction acc with
  | nil => simp [bump, lookupCount, Ne.symm h]
  | cons p tl ih =>
    obtain ⟨k, n⟩ := p
    by_cases hk : k = o
    · subst hk
      have hb : bump ((k, n) :: tl) k = (k, n + 1) :: tl := by
        simp [bump]
      rw [hb, lookupCount, lookupCount,
        if_neg (fun hh => h hh.symm), if_neg (fun hh => h hh.symm)]
    · have hb : bump ((k, n) :: tl) o = (k, n) :: bump tl o := by
        simp [bump, hk]
      rw [hb, lookupCount, lookupCount]
      by_cases hk' : k = o'
      · rw [if_pos hk', if_pos hk']
      · rw [if_neg hk', if_neg hk', ih]

/-- Counting loop invariant: the final count of an owner is its incoming
count plus its number of occurrences. -/
theorem lookupCount_foldl (l : List Event) (acc : List (String × Nat))
    (o : String) :
    lookupCount (l.foldl (fun a e => bump a e.owner) acc) o =
      match lookupCount acc o with
      | some n => some (n + countOwner l o)
      | none =>
        if countOwner l o = 0 then none else some (countOwner l o) := by
  induction l generalizing acc with
  | nil =>
    cases h : lookupCount acc o <;> simp [countOwner, h]
  | cons e tl ih =>
    rw [List.foldl_cons, ih]
    by_cases he : e.owner = o
    · subst he
      rw [lookupCount_bump_self]
      have hcnt : countOwner (e :: tl) e.owner =
          countOwner tl e.owner + 1 := by
        simp [countOwner, List.countP_cons]
      cases h : lookupCount acc e.owner <;>
        simp [h, hcnt] <;> omega
    · rw [lookupCount_bump_ne acc e.owner o (Ne.symm he)]
      have hcnt : countOwner (e :: tl) o = countOwner tl o := by
        simp [countOwner, List.countP_cons, he]
      cases h : lookupCount acc o <;> simp [h, hcnt]

/-- The tally maps each owner to its occurrence count. -/
theorem lookupCount_tally (l : List Event) (o : String) :
    lookupCount (tallyOwners l) o =
      if countOwner l o = 0 then none else some (countOwner l o) := by
  have h := lookupCount_foldl l [] o
  simpa [tallyOwners, lookupCount] using h

/-- Bumping increases the total count by one. -/
theorem bump_sumCounts (acc : List (String × Nat)) (o : String) :
    ((bump acc o).map (fun p => p.2)).sum =
      ((acc.map (fun p => p.2)).sum) + 1 := by
  induction acc with
  | nil => simp [bump]
  | cons p tl ih =>
    obtain ⟨k, n⟩ := p
    by_cases hk : k = o
    · subst hk
      have hb : bump ((k, n) :: tl) k = (k, n + 1) :: tl := by
        simp [bump]
      rw [hb]
      simp
      omega
    · have hb : bump ((k, n) :: tl) o = (k, n) :: bump tl o := by
        simp [bump, hk]
      rw [hb]
      simp [ih]
      omega

/-- The counting loop adds one per event to the total. -/
theorem foldl_bump_sumCounts (l : List Event) (acc : List (String × Nat)) :
    (((l.foldl (fun a e => bump a e.owner) acc)).map
      (fun p => p.2)).sum = ((acc.map (fun p => p.2)).sum) + l.length := by
  induction l generalizing acc with
  | nil => simp
  | cons e tl ih =>
    rw [List.foldl_cons, ih, bump_sumCounts]
    simp only [List.length_cons]
    omega

/-- The tally's total is the number of events. -/
theorem tally_sumCounts (l : List Event) :
    ((tallyOwners l).map (fun p => p.2)).sum = l.length := by
  have h := foldl_bump_sumCounts l []
  simpa [tallyOwners] using h

/-- Lookup commutes with a key-preserving entry transformation. -/
theorem lookupAcc_mapEntries (counts : List (String × Nat))
    (g : Nat → AccEntry) (o : String) :
    lookupAcc (counts.map (fun p => (p.1, g p.2))) o =
      (lookupCount counts o).map g := by
  induction counts with
  | nil => simp [lookupAcc, lookupCount]
  | cons p tl ih =>
    obtain ⟨k, n⟩ := p
    rw [List.map_cons, lookupAcc, lookupCount]
    by_cases hk : k = o
    · rw [if_pos hk, if_pos hk]
      rfl
    · rw [if_neg hk, if_neg hk, ih]

/-- Rounding to the nearest integer moves a rational by at most `1/2`. -/
theorem abs_roundHalfEven_sub (q : ℚ) :
    |(roundHalfEven q : ℚ) - q| ≤ 1 / 2 := by
  have h0 : ((⌊q⌋ : ℤ) : ℚ) ≤ q := Int.floor_le q
  have h1 : q < ((⌊q⌋ : ℤ) : ℚ) + 1 := Int.lt_floor_add_one q
  unfold roundHalfEven
  split_ifs with h2 h3 h4 <;> rw [abs_le] <;> push_cast <;>
    constructor <;> linarith

/-- One-decimal rounding moves a rational by at most `1/20`. -/
theorem abs_round1_sub (q : ℚ) : |round1 q - q| ≤ 1 / 20 := by
  unfold round1
  have h := abs_roundHalfEven_sub (10 * q)
  rw [show (roundHalfEven (10 * q) : ℚ) / 10 - q =
    ((roundHalfEven (10 * q) : ℚ) - 10 * q) / 10 from by ring]
  rw [abs_div, abs_of_pos (by norm_num : (0 : ℚ) < 10)]
  rw [div_le_iff₀ (by norm_num : (0 : ℚ) < 10)]
  linarith

/-- Summing one-decimal roundings moves a sum by at most `1/10` per
summand (`1/20` would do, but `1/10` is the claim's tolerance). -/
theorem sum_round1_close (xs : List ℚ) :
    |(xs.map round1).sum - xs.sum| ≤ (xs.length : ℚ) * (1 / 10) := by
  induction xs with
  | nil => simp
  | cons x tl ih =>
    simp only [List.map_cons, List.sum_cons, List.length_cons]
    have h1 := abs_round1_sub x
    have htri : |round1 x + (tl.map round1).sum - (x + tl.sum)| ≤
        |round1 x - x| + |(tl.map round1).sum - tl.sum| := by
      rw [show round1 x + (tl.map round1).sum - (x + tl.sum) =
        (round1 x - x) + ((tl.map round1).sum - tl.sum) from by ring]
      exact abs_add _ _
    push_cast
    linarith

/-- Scaling distributes over the percentage sum. -/
theorem sum_map_scale (counts : List (String × Nat)) (T : ℚ) :
    (counts.map (fun p => ((p.2 : ℚ) / T) * 100)).sum =
      ((counts.map (fun p => ((p.2 : Nat) : ℚ))).sum / T) * 100 := by
  induction counts with
  | nil => simp
  | cons p tl ih =>
    simp only [List.map_cons, List.sum_cons, ih]
    ring

/-- Casting the total count to `ℚ` commutes with summation. -/
theorem sum_map_cast (counts : List (String × Nat)) :
    (counts.map (fun p => ((p.2 : Nat) : ℚ))).sum =
      (((counts.map (fun p => p.2)).sum : Nat) : ℚ) := by
  rw [show (counts.map (fun p => ((p.2 : Nat) : ℚ))) =
      ((counts.map (fun p => p.2)).map (fun n : Nat => (n : ℚ))) from by
    rw [List.map_map]; rfl]
  exact (Nat.cast_list_sum _).symm

/-- What one owner's accountability entry looks like. -/
theorem compute_accountability_lookup (l : List Event) (o : String) :
    lookupAcc (compute_accountability l) o =
      if countOwner l o = 0 then none
      else some ⟨round1 (((countOwner l o : ℚ) / (l.length : ℚ)) * 100),
                 countOwner l o⟩ := by
  rw [compute_accountability_eq]
  by_cases hl : ((tallyOwners l).map (fun p => p.2)).sum = 0
  · rw [if_pos hl]
    have hlen : l.length = 0 := by rw [← tally_sumCounts l]; exact hl
    have hnil : l = [] := List.length_eq_zero.mp hlen
    subst hnil
    simp [lookupAcc, countOwner]
  · rw [if_neg hl]
    rw [lookupAcc_mapEntries (tallyOwners l)
      (fun c => ⟨round1 (((c : ℚ) /
        ((((tallyOwners l).map (fun p => p.2)).sum : Nat) : ℚ)) * 100), c⟩) o]
    rw [lookupCount_tally, tally_sumCounts]
    by_cases hc : countOwner l o = 0
    · simp [hc]
    · simp [hc]

/-- C7: the estimator is order-independent in its event list (as a
mapping), returns the empty mapping on the empty list, assigns each
occurring owner `round((count / total) * 100, 1)` with its raw count, and
its percentages sum to 100 within `±0.1` per entry times the number of
entries. -/
theorem accountability_properties (l₁ l₂ : List Event) (hperm : l₁.Perm l₂)
    (l : List Event) (hne : l ≠ []) :
    (∀ o, lookupAcc (compute_accountability l₁) o =
      lookupAcc (compute_accountability l₂) o) ∧
    compute_accountability ([] : List Event) = [] ∧
    (∀ o, 0 < countOwner l o →
      lookupAcc (compute_accountability l) o =
        some ⟨round1 (((countOwner l o : ℚ) / (l.length : ℚ)) * 100),
              countOwner l o⟩) ∧
    |sumPct (compute_accountability l) - 100| ≤
      ((compute_accountability l).length : ℚ) * (1 / 10) := by
  refine ⟨?_, rfl, ?_, ?_⟩
  · intro o
    rw [compute_accountability_lookup, compute_accountability_lookup]
    have hcnt : countOwner l₁ o = countOwner l₂ o := hperm.countP_eq _
    have hlen : l₁.length = l₂.length := hperm.length_eq
    rw [hcnt, hlen]
  · intro o hpos
    rw [compute_accountability_lookup, if_neg (by omega)]
  · have hl : ((tallyOwners l).map (fun p => p.2)).sum ≠ 0 := by
      rw [tally_sumCounts]
      have := List.length_pos.mpr hne
      omega
    have hform : compute_accountability l =
        (tallyOwners l).map (fun p =>
          (p.1, (⟨round1 (((p.2 : ℚ) /
            ((((tallyOwners l).map (fun p => p.2)).sum : Nat) : ℚ)) * 100),
            p.2⟩ : AccEntry))) := by
      rw [compute_accountability_eq, if_neg hl]
    rw [hform]
    have hmm : sumPct ((tallyOwners l).map (fun p =>
        (p.1, (⟨round1 (((p.2 : ℚ) /
          ((((tallyOwners l).map (fun p => p.2)).sum : Nat) : ℚ)) * 100),
          p.2⟩ : AccEntry)))) =
        (((tallyOwners l).map (fun p => ((p.2 : ℚ) /
          ((((tallyOwners l).map (fun p => p.2)).sum : Nat) : ℚ)) * 100)).map
            round1).sum := by
      unfold sumPct
      rw [List.map_map, List.map_map]
      rfl
    rw [hmm]
    have hsum : ((tallyOwners l).map (fun p => ((p.2 : ℚ) /
        ((((tallyOwners l).map (fun p => p.2)).sum : Nat) : ℚ)) * 100)).sum =
        100 := by
      rw [sum_map_scale, sum_map_cast, div_self (by exact_mod_cast hl)]
      norm_num
    have hclose := sum_round1_close ((tallyOwners l).map (fun p =>
      ((p.2 : ℚ) /
        ((((tallyOwners l).map (fun p => p.2)).sum : Nat) : ℚ)) * 100))
    rw [hsum] at hclose
    simpa [List.length_map] using hclose

/-- Witness for C7 at two concrete event lists that are permutations of
each other. -/
theorem accountability_properties_witness :
    lookupAcc (compute_accountability [eTieA, eTieB]) "Carrier_SUP" =
      lookupAcc (compute_accountability [eTieB, eTieA]) "Carrier_SUP" ∧
    compute_accountability ([] : List Event) = [] ∧
    lookupAcc (compute_accountability [eTieA, eTieB]) "Carrier_SUP" =
      some ⟨round1 (((countOwner [eTieA, eTieB] "Carrier_SUP" : ℚ) /
          (([eTieA, eTieB] : List Event).length : ℚ)) * 100),
        countOwner [eTieA, eTieB] "Carrier_SUP"⟩ ∧
    |sumPct (compute_accountability [eTieA, eTieB]) - 100| ≤
      ((compute_accountability [eTieA, eTieB]).length : ℚ) * (1 / 10) :=
  ⟨(accountability_properties [eTieA, eTieB] [eTieB, eTieA]
      (List.Perm.swap eTieB eTieA []) [eTieA, eTieB] (by simp)).1
      "Carrier_SUP",
   (accountability_properties [eTieA, eTieB] [eTieB, eTieA]
      (List.Perm.swap eTieB eTieA []) [eTieA, eTieB] (by simp)).2.1,
   (accountability_properties [eTieA, eTieB] [eTieB, eTieA]
      (List.Perm.swap eTieB eTieA []) [eTieA, eTieB] (by simp)).2.2.1
      "Carrier_SUP" (by decide),
   (accountability_properties [eTieA, eTieB] [eTieB, eTieA]
      (List.Perm.swap eTieB eTieA []) [eTieA, eTieB] (by simp)).2.2.2⟩

/-! ## C8 — historical waste average -/

/-- The waste-history query issued by the cost analyzer: up to 10
finance-waste-log records filtered to `event_type == "Quarantine"`. -/
def wasteRows (db : DB) : List Record :=
  (queryDataSource db "finance_waste_log"
    [("event_type", FVal.scalar (.str "Quarantine"))] (some 10)).resultsOf

/-- Two-decimal rounding of zero is zero. -/
theorem round2_zero : round2 0 = 0 := by
  unfold round2
  rw [show (100 : ℚ) * 0 = ((0 : ℤ) : ℚ) from by norm_num,
    roundHalfEven_intCast]
  norm_num

/-- C8: the historical average is the mean of `total_loss_usd` over at
most 10 records of the waste query, each filtered to
`event_type == "Quarantine"`; with no history the average defaults to 0
(not an error), the reported `historical_waste_avg_usd` is 0 and the
`reject_reship` total cost is exactly 1200. -/
theorem avg_waste_mean_and_cold_start (db : DB) (id : String)
    (a : CostAnalysis) (h : compute_cost_analysis db id = .ok a) :
    (wasteRows db).length ≤ 10 ∧
    (∀ r ∈ wasteRows db,
      recordGet r "event_type" = some (.str "Quarantine")) ∧
    (∀ losses, (wasteRows db).mapM lossOf = some losses →
      a.reject_reship.total_cost_usd =
        (if (wasteRows db).isEmpty then 0
         else losses.sum / ((wasteRows db).length : ℚ)) + 1200 ∧
      a.historical_waste_avg_usd =
        round2 (if (wasteRows db).isEmpty then 0
          else losses.sum / ((wasteRows db).length : ℚ))) ∧
    (wasteRows db = [] →
      a.historical_waste_avg_usd = 0 ∧
      a.reject_reship.total_cost_usd = 1200) := by
  refine ⟨?_, ?_, ?_, ?_⟩
  · simpa using query_length_le db "finance_waste_log"
      [("event_type", FVal.scalar (.str "Quarantine"))] 10 (by norm_num)
  · intro r hr
    cases hf : findSource db "finance_waste_log" with
    | none =>
      rw [wasteRows] at hr
      simp [queryDataSource, hf, QueryResult.resultsOf] at hr
    | some t =>
      have hsound := query_results_sound db "finance_waste_log"
        [("event_type", FVal.scalar (.str "Quarantine"))] (some 10) t hf r hr
      exact matchesFilter_scalar _ _ _
        (hsound.2 ("event_type", FVal.scalar (Value.str "Quarantine"))
          (by simp))
  · unfold compute_cost_analysis at h
    split at h
    · cases h
    · dsimp only [] at h
      split at h
      · cases h
      · rename_i losses0 hsome
        cases h
        intro losses hmapM
        rw [show (wasteRows db).mapM lossOf =
            List.mapM lossOf (wasteRows db) from rfl] at hmapM
        rw [show List.mapM lossOf (wasteRows db) =
            List.mapM lossOf ((queryDataSource db "finance_waste_log"
              [("event_type", FVal.scalar (.str "Quarantine"))]
              (some 10)).resultsOf) from rfl, hsome] at hmapM
        cases hmapM
        exact ⟨rfl, rfl⟩
  · unfold compute_cost_analysis at h
    split at h
    · cases h
    · dsimp only [] at h
      split at h
      · cases h
      · rename_i losses0 hsome
        cases h
        intro hempty
        have hW : (queryDataSource db "finance_waste_log"
            [("event_type", FVal.scalar (.str "Quarantine"))]
            (some 10)).resultsOf = [] := hempty
        dsimp only
        rw [hW]
        constructor
        · simp [round2_zero]
        · simp

/-- Witness for C8: the cold-start catalog `dbCost` has no waste history,
so the reported average is 0 and the reship scenario costs exactly 1200. -/
theorem avg_waste_mean_and_cold_start_witness :
    (wasteRows dbCost).length ≤ 10 ∧
    aCost.historical_waste_avg_usd = 0 ∧
    aCost.reject_reship.total_cost_usd = 1200 :=
  ⟨(avg_waste_mean_and_cold_start dbCost "S1" aCost rfl).1,
   ((avg_waste_mean_and_cold_start dbCost "S1" aCost rfl).2.2.2 rfl).1,
   ((avg_waste_mean_and_cold_start dbCost "S1" aCost rfl).2.2.2 rfl).2⟩

end PharmaData
